import Mathlib

/-!
Verification of the NTP packet codec and receive path
(`protocol/ntp/packet.go`).

The Go source is shallowly embedded: byte slices become `List Nat`
(each element a byte value `< 256`), machine integers become `Nat`
(unsigned) or `Int` (signed) with explicit `% 2^w` truncation at the
points where the machine width matters, and Go's multi-value
`(result, error)` returns become pairs with an `Option` error
component, mirroring the Go convention that every return carries both
a value and a possibly-nil error.
-/

namespace Ntp

/-- `NTPPacketSizeBytes` from the source: size of an NTP packet. -/
def NTPPacketSizeBytes : Nat := 48

/-- `ControlHeaderSizeBytes` from the source: size of the ancillary
(out-of-band) buffer used to receive kernel/hardware timestamps. -/
def ControlHeaderSizeBytes : Nat := 32

/-- The `Packet` struct from the source.  Field order and widths follow
the Go struct: two `uint8`, two `int8`, then eleven `uint32` fields.
Unsigned fields are `Nat` (in-range means `< 256` resp. `< 2^32`),
signed `int8` fields are `Int` (in-range means `-128 ≤ x < 128`). -/
structure Packet where
  Settings       : Nat
  Stratum        : Nat
  Poll           : Int
  Precision      : Int
  RootDelay      : Nat
  RootDispersion : Nat
  ReferenceID    : Nat
  RefTimeSec     : Nat
  RefTimeFrac    : Nat
  OrigTimeSec    : Nat
  OrigTimeFrac   : Nat
  RxTimeSec      : Nat
  RxTimeFrac     : Nat
  TxTimeSec      : Nat
  TxTimeFrac     : Nat
  deriving DecidableEq, Repr

/-- The Go zero value `Packet{}`: every field zero. -/
def Packet.zero : Packet :=
  ⟨0, 0, 0, 0, 0, 0, 0, 0, 0, 0, 0, 0, 0, 0, 0⟩

/-- Well-formedness: every field is in the range of its Go machine type
(`uint8`, `int8`, `uint32`).  This always holds of a Go `Packet` value;
the embedding states it explicitly. -/
def Packet.WF (p : Packet) : Prop :=
  p.Settings < 256 ∧ p.Stratum < 256 ∧
  -128 ≤ p.Poll ∧ p.Poll < 128 ∧ -128 ≤ p.Precision ∧ p.Precision < 128 ∧
  p.RootDelay < 2^32 ∧ p.RootDispersion < 2^32 ∧ p.ReferenceID < 2^32 ∧
  p.RefTimeSec < 2^32 ∧ p.RefTimeFrac < 2^32 ∧
  p.OrigTimeSec < 2^32 ∧ p.OrigTimeFrac < 2^32 ∧
  p.RxTimeSec < 2^32 ∧ p.RxTimeFrac < 2^32 ∧
  p.TxTimeSec < 2^32 ∧ p.TxTimeFrac < 2^32

instance (p : Packet) : Decidable p.WF := by
  unfold Packet.WF; infer_instance

/-- Constants `liNoWarning`, `liAlarmCondition`, `vnFirst`, `vnLast`,
`modeClient` from the source. -/
def liNoWarning : Nat := 0

def liAlarmCondition : Nat := 3

def vnFirst : Nat := 1

def vnLast : Nat := 4

def modeClient : Nat := 3

/-- The body of `ValidSettingsFormat`, operating on the `Settings` byte
(a Go `uint8`).  Go's `settings >> 6`, `(settings << 2) >> 5`,
`(settings << 5) >> 5` on `uint8` are shifts with truncation to 8 bits
after each left shift, embedded as `% 256`. -/
def validSettingsByte (settings : Nat) : Bool :=
  let l := settings >>> 6
  let v := ((settings <<< 2) % 256) >>> 5
  let m := ((settings <<< 5) % 256) >>> 5
  if l = liNoWarning ∨ l = liAlarmCondition then
    if vnFirst ≤ v ∧ v ≤ vnLast then
      if m = modeClient then
        true
      else false
    else false
  else false

/-- `(*Packet).ValidSettingsFormat` from the source: reads the
`Settings` field into a local and checks the LI/VN/Mode bit fields. -/
def Packet.ValidSettingsFormat (p : Packet) : Bool :=
  validSettingsByte p.Settings

/-- Big-endian encoding of a `uint32` value into four bytes, as
performed by `binary.Write` with `binary.BigEndian` for a `uint32`
field. -/
def be32 (n : Nat) : List Nat :=
  [n / 2^24 % 256, n / 2^16 % 256, n / 2^8 % 256, n % 256]

/-- The single byte written for a Go `int8` field: its two's-complement
representation.  `Int.emod` already yields a value in `[0, 256)`. -/
def int8Byte (i : Int) : Nat :=
  (i % 256).toNat

/-- Reading a byte back as a Go `int8`: two's-complement decoding. -/
def byteToInt8 (b : Nat) : Int :=
  if b < 128 then (b : Nat) else (b : Int) - 256

/-- The byte image of a `Packet` under `binary.Write(_, binary.BigEndian, p)`:
each struct field in declaration order, big-endian, 48 bytes in total.
The `% 256` / `% 2^32` truncations make the machine width of each field
explicit for out-of-range `Nat` field values; for a well-formed packet
they are identities. -/
def encodePacket (p : Packet) : List Nat :=
  [p.Settings % 256, p.Stratum % 256, int8Byte p.Poll, int8Byte p.Precision]
    ++ be32 p.RootDelay ++ be32 p.RootDispersion ++ be32 p.ReferenceID
    ++ be32 p.RefTimeSec ++ be32 p.RefTimeFrac
    ++ be32 p.OrigTimeSec ++ be32 p.OrigTimeFrac
    ++ be32 p.RxTimeSec ++ be32 p.RxTimeFrac
    ++ be32 p.TxTimeSec ++ be32 p.TxTimeFrac

/-- `bytes.Buffer.Write`: appends to the in-memory buffer and, per its
documented contract, always returns a nil error (the buffer grows as
needed). -/
def bufferWrite (buf data : List Nat) : List Nat × Option String :=
  (buf ++ data, none)

/-- `(*Packet).Bytes` from the source: `binary.Write` serializes the
struct big-endian into a fresh `bytes.Buffer` and the error returned is
the sink's write error.  Result is the buffer contents plus that
error. -/
def Packet.Bytes (p : Packet) : List Nat × Option String :=
  bufferWrite [] (encodePacket p)

/-- The error values `binary.Read` produces when fewer bytes than the
struct size are available: `io.EOF` when the reader is empty,
`io.ErrUnexpectedEOF` otherwise. -/
inductive DecodingError where
  | eof
  | unexpectedEOF
  deriving DecidableEq, Repr

/-- Big-endian read of a `uint32` at byte offset `i` of a buffer,
as `binary.Read` does for a `uint32` field. -/
def readU32 (l : List Nat) (i : Nat) : Nat :=
  l.getD i 0 * 2^24 + l.getD (i+1) 0 * 2^16 + l.getD (i+2) 0 * 2^8 + l.getD (i+3) 0

/-- `BytesToPacket` from the source: `binary.Read` first fills a
48-byte staging buffer with `io.ReadFull`; if fewer than 48 bytes are
available it fails (leaving the fresh `&Packet{}` untouched, i.e.
zero), otherwise it decodes each field big-endian from the first 48
bytes, ignoring the rest.  The Go function returns the (always
non-nil) packet pointer together with the error. -/
def BytesToPacket (ntpPacketBytes : List Nat) : Packet × Option DecodingError :=
  if NTPPacketSizeBytes ≤ ntpPacketBytes.length then
    ({ Settings := ntpPacketBytes.getD 0 0
       Stratum := ntpPacketBytes.getD 1 0
       Poll := byteToInt8 (ntpPacketBytes.getD 2 0)
       Precision := byteToInt8 (ntpPacketBytes.getD 3 0)
       RootDelay := readU32 ntpPacketBytes 4
       RootDispersion := readU32 ntpPacketBytes 8
       ReferenceID := readU32 ntpPacketBytes 12
       RefTimeSec := readU32 ntpPacketBytes 16
       RefTimeFrac := readU32 ntpPacketBytes 20
       OrigTimeSec := readU32 ntpPacketBytes 24
       OrigTimeFrac := readU32 ntpPacketBytes 28
       RxTimeSec := readU32 ntpPacketBytes 32
       RxTimeFrac := readU32 ntpPacketBytes 36
       TxTimeSec := readU32 ntpPacketBytes 40
       TxTimeFrac := readU32 ntpPacketBytes 44 }, none)
  else
    (Packet.zero,
      some (if ntpPacketBytes.length = 0 then DecodingError.eof
            else DecodingError.unexpectedEOF))

/-- A transport-level error from the socket layer (`conn.ReadFromUDP`,
`syscall.Recvmsg`, or `connFd`), abstracted as its message. -/
abbrev NetErrMsg : Type := String

/-- The error returned by a receive function: either a socket-layer
error propagated verbatim, or a `DecodingError` from `BytesToPacket`. -/
abbrev ReceiveError : Type := NetErrMsg ⊕ DecodingError

/-- The low-level socket address returned by `syscall.Recvmsg`,
kept abstract (the receive path never inspects it). -/
structure Sockaddr where
  raw : Nat
  deriving DecidableEq

/-- A UDP peer address, kept abstract. -/
structure UDPAddr where
  raw : Nat
  deriving DecidableEq

/-- Modelled from the spec: `sockaddrToUDP` lives outside this core
("Convert the low-level socket address structure returned by the
receive call into a PeerAddress", §4.4 step 5) — a pure conversion of
the socket address. -/
def sockaddrToUDP (sa : Sockaddr) : UDPAddr :=
  ⟨sa.raw⟩

/-- The contents of a freshly allocated zeroed buffer of `size` bytes
after the kernel wrote `data` into it: `recvmsg`/`ReadFromUDP` write at
most `size` bytes and the untouched tail keeps its zero initial value
(`make([]byte, size)` zero-fills). -/
def fillBuf (size : Nat) (data : List Nat) : List Nat :=
  data.take size ++ List.replicate (size - data.length) 0

/-- Result tuple of `ReadNTPPacket`, mirroring the Go return values
`(ntp *Packet, remAddr net.Addr, err error)`; the `Option` on the
first two components models pointer/interface nil-ness. -/
structure PlainReceiveResult where
  ntp : Option Packet
  remAddr : Option UDPAddr
  err : Option ReceiveError
  deriving DecidableEq

/-- `ReadNTPPacket` from the source.  The outcome of the external call
`conn.ReadFromUDP` is a parameter: an error, or the received datagram
bytes together with the sender address.  On receive error the function
returns `(nil, nil, err)`; otherwise it decodes the full 48-byte
buffer (regardless of the datagram length) and returns the packet, the
address and the decode error. -/
def ReadNTPPacket (recvRes : Except NetErrMsg (List Nat × UDPAddr)) :
    PlainReceiveResult :=
  match recvRes with
  | .error e => ⟨none, none, some (.inl e)⟩
  | .ok (data, remAddr) =>
      let buf := fillBuf NTPPacketSizeBytes data
      let r := BytesToPacket buf
      ⟨some r.1, some remAddr, r.2.map .inr⟩

/-- `syscall.Timespec`: seconds and nanoseconds, both `int64`. -/
structure Timespec where
  sec : Int
  nsec : Int
  deriving DecidableEq

/-- `syscall.CmsgSpace(0)` on linux/amd64: the aligned size of a
`Cmsghdr` (16 bytes) plus a zero-length payload. -/
def cmsgSpace0 : Nat := 16

/-- Little-endian (x86-64 native) read of a `uint64` at byte offset `i`. -/
def le64 (l : List Nat) (i : Nat) : Nat :=
  l.getD i 0 + l.getD (i+1) 0 * 2^8 + l.getD (i+2) 0 * 2^16 +
    l.getD (i+3) 0 * 2^24 + l.getD (i+4) 0 * 2^32 + l.getD (i+5) 0 * 2^40 +
    l.getD (i+6) 0 * 2^48 + l.getD (i+7) 0 * 2^56

/-- Reinterpret a 64-bit pattern as an `int64` (two's complement). -/
def toInt64 (n : Nat) : Int :=
  if n % 2^64 < 2^63 then ((n % 2^64 : Nat) : Int) else ((n % 2^64 : Nat) : Int) - 2^64

/-- The pointer cast
`ts := (*syscall.Timespec)(unsafe.Pointer(&oob[syscall.CmsgSpace(0)]))`
from the source: reinterpret the 16 bytes of the `oob` buffer starting
at offset `CmsgSpace(0)` as a `Timespec` (two native-endian `int64`s),
unconditionally — no length or presence check precedes the read. -/
def readTimespecAt (oob : List Nat) : Timespec :=
  ⟨toInt64 (le64 oob cmsgSpace0), toInt64 (le64 oob (cmsgSpace0 + 8))⟩

/-- Everything `syscall.Recvmsg` hands back on success: the datagram
bytes written into `buf`, the ancillary bytes written into `oob`
(`oobData.length` is `oobn`; empty when the kernel delivered no
control message), and the peer socket address. -/
structure RecvmsgOk where
  data : List Nat
  oobData : List Nat
  sa : Sockaddr
  deriving DecidableEq

/-- Result tuple of `ReadPacketWithKernelTimestamp`, mirroring the Go
return values `(ntp *Packet, hwRxTime time.Time, remAddr net.Addr,
err error)`.  `time.Time{}` (the zero value returned on the error
paths) is modelled as `Timespec 0 0`. -/
structure KernelTsReceiveResult where
  ntp : Option Packet
  hwRxTime : Timespec
  remAddr : Option UDPAddr
  err : Option ReceiveError
  deriving DecidableEq

/-- `ReadPacketWithKernelTimestamp` from the source.  The outcomes of
the two external calls are parameters: `connFdRes` for `connFd(conn)`
(resolving the raw socket descriptor) and `recvRes` for
`syscall.Recvmsg`.  On either failure it returns
`(nil, time.Time{}, nil, err)`.  Otherwise it reinterprets the `oob`
buffer (the delivered ancillary bytes padded with the buffer's zero
initialization up to `ControlHeaderSizeBytes`) as a `Timespec` at the
fixed offset `CmsgSpace(0)`, decodes the 48-byte payload buffer, and
returns packet, timestamp, converted address and the decode error. -/
def ReadPacketWithKernelTimestamp (connFdRes : Except NetErrMsg Nat)
    (recvRes : Except NetErrMsg RecvmsgOk) : KernelTsReceiveResult :=
  match connFdRes with
  | .error e => ⟨none, ⟨0, 0⟩, none, some (.inl e)⟩
  | .ok _ =>
    match recvRes with
    | .error e => ⟨none, ⟨0, 0⟩, none, some (.inl e)⟩
    | .ok r =>
        let buf := fillBuf NTPPacketSizeBytes r.data
        let oob := fillBuf ControlHeaderSizeBytes r.oobData
        let hwRxTime := readTimespecAt oob
        let d := BytesToPacket buf
        ⟨some d.1, hwRxTime, some (sockaddrToUDP r.sa), d.2.map .inr⟩

/-! ## Helper lemmas -/

set_option maxRecDepth 8192
set_option maxHeartbeats 1000000

/-- Two's-complement byte round-trip for in-range `int8` values. -/
theorem byteToInt8_int8Byte (i : Int) (h1 : -128 ≤ i) (h2 : i < 128) :
    byteToInt8 (int8Byte i) = i := by
  unfold byteToInt8 int8Byte
  split <;> omega

/-- `getD` below the cut commutes with `take`. -/
theorem getD_take_of_lt (l : List Nat) (n i : Nat) (h : i < n) :
    (l.take n).getD i 0 = l.getD i 0 := by
  simp [List.getD_eq_getElem?_getD, List.getElem?_take, h]

/-- A zero-initialized receive buffer always has its full allocated
length after the kernel writes the datagram into it. -/
theorem fillBuf_length (size : Nat) (data : List Nat) :
    (fillBuf size data).length = size := by
  simp only [fillBuf, List.length_append, List.length_take, List.length_replicate]
  omega

/-- `BytesToPacket` reports no error on buffers of at least 48 bytes. -/
theorem bytesToPacket_snd_none (l : List Nat) (h : NTPPacketSizeBytes ≤ l.length) :
    (BytesToPacket l).2 = none := by
  simp [BytesToPacket, h]

/-- Bit-level characterization of the settings check, byte version:
accepted iff LI (bits 7–6) is 0 or 3, VN (bits 5–3) is in `[1,4]`, and
Mode (bits 2–0) is 3. -/
theorem validSettingsByte_iff : ∀ s : Nat, s < 256 →
    (validSettingsByte s = true ↔
      (s / 64 = 0 ∨ s / 64 = 3) ∧ (1 ≤ s / 8 % 8 ∧ s / 8 % 8 ≤ 4) ∧ s % 8 = 3) := by
  decide

/-! ## Claim theorems -/

/-- C3: `ValidSettingsFormat` accepts exactly the Settings bytes whose
leap indicator (bits 7–6) is 0 or 3, version (bits 5–3) is in `[1,4]`
and mode (bits 2–0) is 3; in particular it accepts `0x1B` and `0xE3`
and rejects `0x1C` and `0x9B`, over all 256 byte values. -/
theorem valid_settings_format_characterization :
    (∀ p : Packet, p.Settings < 256 →
      (p.ValidSettingsFormat = true ↔
        (p.Settings / 64 = 0 ∨ p.Settings / 64 = 3) ∧
        (1 ≤ p.Settings / 8 % 8 ∧ p.Settings / 8 % 8 ≤ 4) ∧
        p.Settings % 8 = 3)) ∧
    ({ Packet.zero with Settings := 0x1B }).ValidSettingsFormat = true ∧
    ({ Packet.zero with Settings := 0xE3 }).ValidSettingsFormat = true ∧
    ({ Packet.zero with Settings := 0x1C }).ValidSettingsFormat = false ∧
    ({ Packet.zero with Settings := 0x9B }).ValidSettingsFormat = false := by
  refine ⟨fun p h => validSettingsByte_iff p.Settings h, by decide, by decide, by decide, by decide⟩

/-- C3 witness: the characterization applied to the concrete client
request byte `0x1B`. -/
theorem valid_settings_format_characterization_witness :
    ({ Packet.zero with Settings := 0x1B } : Packet).ValidSettingsFormat = true ↔
      (0x1B / 64 = 0 ∨ 0x1B / 64 = 3) ∧
      (1 ≤ 0x1B / 8 % 8 ∧ 0x1B / 8 % 8 ≤ 4) ∧ 0x1B % 8 = 3 :=
  valid_settings_format_characterization.1 { Packet.zero with Settings := 0x1B } (by decide)

/-- C6: decoding 48 zero bytes succeeds with the all-zero packet, and
that packet fails the settings check (mode 0, not 3). -/
theorem decode_zero_buffer :
    BytesToPacket (List.replicate 48 0) = (Packet.zero, none) ∧
    Packet.zero.ValidSettingsFormat = false := by
  decide

/-- C9: encoding never fails — the error component of `Bytes` is nil
for every packet, the sink being an in-memory buffer whose writes
always succeed. -/
theorem bytes_err_always_none (p : Packet) : (p.Bytes).2 = none :=
  rfl

/-- C10: on a short input, `BytesToPacket` returns the error together
with the untouched freshly-allocated packet — every field still zero,
none partially populated. -/
theorem short_decode_returns_zero_packet (buf : List Nat) (h : buf.length < 48) :
    (BytesToPacket buf).1 = Packet.zero ∧ (BytesToPacket buf).2 ≠ none := by
  have hn : ¬ NTPPacketSizeBytes ≤ buf.length := by
    simp only [NTPPacketSizeBytes]; omega
  simp [BytesToPacket, hn]

/-- C10 witness: a one-byte input decodes to the zero packet plus an
error. -/
theorem short_decode_returns_zero_packet_witness :
    ([5].length < 48) ∧
      ((BytesToPacket [5]).1 = Packet.zero ∧ (BytesToPacket [5]).2 ≠ none) :=
  ⟨by decide, short_decode_returns_zero_packet [5] (by decide)⟩

/-- C2: decode inverts encode — for every well-formed packet,
`BytesToPacket` applied to the bytes of `Bytes` succeeds with no error
and returns the original packet. -/
theorem decode_encode_roundtrip (p : Packet) (h : p.WF) :
    BytesToPacket (p.Bytes).1 = (p, none) := by
  obtain ⟨s, st, po, pr, rd, rdi, rid, rts, rtf, ots, otf, rxs, rxf, txs, txf⟩ := p
  obtain ⟨h1, h2, h3, h4, h5, h6, h7, h8, h9, h10, h11, h12, h13, h14, h15, h16, h17⟩ := h
  dsimp only at h1 h2 h3 h4 h5 h6 h7 h8 h9 h10 h11 h12 h13 h14 h15 h16 h17
  have hpo : byteToInt8 (int8Byte po) = po := byteToInt8_int8Byte po h3 h4
  have hpr : byteToInt8 (int8Byte pr) = pr := byteToInt8_int8Byte pr h5 h6
  simp only [Packet.Bytes, bufferWrite, encodePacket, be32, BytesToPacket, readU32,
    NTPPacketSizeBytes, List.cons_append, List.nil_append]
  simp only [List.length_cons, List.length_nil]
  norm_num [hpo, hpr]
  all_goals omega

/-- The all-maximum packet: every field at the top of its machine
range (`uint8` 255, `int8` 127 and −128, `uint32` `2^32 − 1`). -/
def maxPacket : Packet :=
  ⟨255, 255, 127, -128, 2^32 - 1, 2^32 - 1, 2^32 - 1, 2^32 - 1, 2^32 - 1,
   2^32 - 1, 2^32 - 1, 2^32 - 1, 2^32 - 1, 2^32 - 1, 2^32 - 1⟩

/-- C2 witness: the round trip at the all-maximum packet. -/
theorem decode_encode_roundtrip_witness :
    maxPacket.WF ∧ BytesToPacket (maxPacket.Bytes).1 = (maxPacket, none) :=
  ⟨by decide, decode_encode_roundtrip maxPacket (by decide)⟩

/-- C4: encoding always yields exactly 48 bytes, laid out in the fixed
field order with multi-byte fields big-endian — the byte at offset 0
is the Settings byte, offset 1 Stratum, offsets 2 and 3 the
two's-complement Poll and Precision, and the big-endian 32-bit words
at offsets 4, 8, …, 44 are the eleven `uint32` fields in order. -/
theorem encode_fixed_size_and_layout (p : Packet) :
    (p.Bytes).1.length = 48 ∧
    (p.Bytes).1.getD 0 0 = p.Settings % 256 ∧
    (p.Bytes).1.getD 1 0 = p.Stratum % 256 ∧
    (p.Bytes).1.getD 2 0 = int8Byte p.Poll ∧
    (p.Bytes).1.getD 3 0 = int8Byte p.Precision ∧
    readU32 (p.Bytes).1 4 = p.RootDelay % 2^32 ∧
    readU32 (p.Bytes).1 8 = p.RootDispersion % 2^32 ∧
    readU32 (p.Bytes).1 12 = p.ReferenceID % 2^32 ∧
    readU32 (p.Bytes).1 16 = p.RefTimeSec % 2^32 ∧
    readU32 (p.Bytes).1 20 = p.RefTimeFrac % 2^32 ∧
    readU32 (p.Bytes).1 24 = p.OrigTimeSec % 2^32 ∧
    readU32 (p.Bytes).1 28 = p.OrigTimeFrac % 2^32 ∧
    readU32 (p.Bytes).1 32 = p.RxTimeSec % 2^32 ∧
    readU32 (p.Bytes).1 36 = p.RxTimeFrac % 2^32 ∧
    readU32 (p.Bytes).1 40 = p.TxTimeSec % 2^32 ∧
    readU32 (p.Bytes).1 44 = p.TxTimeFrac % 2^32 := by
  obtain ⟨s, st, po, pr, rd, rdi, rid, rts, rtf, ots, otf, rxs, rxf, txs, txf⟩ := p
  simp only [Packet.Bytes, bufferWrite, encodePacket, be32, readU32,
    List.cons_append, List.nil_append]
  simp only [List.length_cons, List.length_nil]
  norm_num
  all_goals omega

/-- C5: `BytesToPacket` fails (with the zero packet and a
`DecodingError`) on every buffer shorter than 48 bytes, and succeeds
on every buffer of at least 48 bytes, where it depends only on the
first 48 bytes — trailing bytes are ignored. -/
theorem decode_length_dichotomy (buf : List Nat) :
    (buf.length < 48 → ∃ e, BytesToPacket buf = (Packet.zero, some e)) ∧
    (48 ≤ buf.length →
      (BytesToPacket buf).2 = none ∧ BytesToPacket buf = BytesToPacket (buf.take 48)) := by
  constructor
  · intro h
    refine ⟨if buf.length = 0 then .eof else .unexpectedEOF, ?_⟩
    have hn : ¬ NTPPacketSizeBytes ≤ buf.length := by
      simp only [NTPPacketSizeBytes]; omega
    simp [BytesToPacket, hn]
  · intro h
    have h48 : NTPPacketSizeBytes ≤ buf.length := h
    have ht : NTPPacketSizeBytes ≤ (buf.take 48).length := by
      simp only [NTPPacketSizeBytes, List.length_take]; omega
    refine ⟨bytesToPacket_snd_none buf h48, ?_⟩
    simp only [BytesToPacket, if_pos h48, if_pos ht]
    simp [readU32, getD_take_of_lt]

/-- C5 witness: a three-byte buffer is rejected with the zero packet
and an error. -/
theorem decode_length_dichotomy_witness :
    [1, 2, 3].length < 48 ∧ ∃ e, BytesToPacket [1, 2, 3] = (Packet.zero, some e) :=
  ⟨by decide, (decode_length_dichotomy [1, 2, 3]).1 (by decide)⟩

/-- C8: when the underlying receive succeeds, `ReadNTPPacket` never
fails — it decodes the full pre-allocated 48-byte buffer regardless of
the datagram length, any missing tail of a short datagram being the
buffer's zero bytes, so the result always carries a packet and a nil
error. -/
theorem plain_receive_decode_never_fails (data : List Nat) (addr : UDPAddr) :
    (ReadNTPPacket (.ok (data, addr))).err = none ∧
    (∃ q, (ReadNTPPacket (.ok (data, addr))).ntp = some q) ∧
    (ReadNTPPacket (.ok (data, addr))).ntp =
      some (BytesToPacket (data.take 48 ++ List.replicate (48 - data.length) 0)).1 := by
  refine ⟨?_, ⟨_, rfl⟩, rfl⟩
  show ((BytesToPacket (fillBuf NTPPacketSizeBytes data)).2.map Sum.inr) = none
  rw [bytesToPacket_snd_none _ (fillBuf_length NTPPacketSizeBytes data).ge]
  rfl

/-- C7: the timestamped receive succeeds exactly when descriptor
resolution and the low-level receive succeed (its other two steps,
timestamp extraction and payload decoding of the 48-byte buffer,
cannot fail); on any failure it returns no packet, no address, and the
zero time value — no partial result as if valid — and on success it
returns a packet and an address. -/
theorem kernel_rx_error_propagation (fdRes : Except NetErrMsg Nat)
    (recvRes : Except NetErrMsg RecvmsgOk) :
    ((ReadPacketWithKernelTimestamp fdRes recvRes).err = none ↔
      (∃ fd, fdRes = .ok fd) ∧ (∃ r, recvRes = .ok r)) ∧
    ((ReadPacketWithKernelTimestamp fdRes recvRes).err ≠ none →
      (ReadPacketWithKernelTimestamp fdRes recvRes).ntp = none ∧
      (ReadPacketWithKernelTimestamp fdRes recvRes).remAddr = none ∧
      (ReadPacketWithKernelTimestamp fdRes recvRes).hwRxTime = ⟨0, 0⟩) ∧
    ((ReadPacketWithKernelTimestamp fdRes recvRes).err = none →
      (∃ q, (ReadPacketWithKernelTimestamp fdRes recvRes).ntp = some q) ∧
      (∃ a, (ReadPacketWithKernelTimestamp fdRes recvRes).remAddr = some a)) := by
  cases fdRes with
  | error e => simp [ReadPacketWithKernelTimestamp]
  | ok fd =>
    cases recvRes with
    | error e => simp [ReadPacketWithKernelTimestamp]
    | ok r =>
      have herr : (ReadPacketWithKernelTimestamp (.ok fd) (.ok r)).err = none := by
        show ((BytesToPacket (fillBuf NTPPacketSizeBytes r.data)).2.map Sum.inr) = none
        rw [bytesToPacket_snd_none _ (fillBuf_length NTPPacketSizeBytes r.data).ge]
        rfl
      exact ⟨⟨fun _ => ⟨⟨fd, rfl⟩, ⟨r, rfl⟩⟩, fun _ => herr⟩,
        fun hne => absurd herr hne, fun _ => ⟨⟨_, rfl⟩, ⟨_, rfl⟩⟩⟩

/-- C7 witness: a failed descriptor resolution yields no packet, no
address and the zero time. -/
theorem kernel_rx_error_propagation_witness :
    (ReadPacketWithKernelTimestamp (.error "socket fd unavailable")
        (.error "recvmsg failed")).ntp = none ∧
    (ReadPacketWithKernelTimestamp (.error "socket fd unavailable")
        (.error "recvmsg failed")).remAddr = none ∧
    (ReadPacketWithKernelTimestamp (.error "socket fd unavailable")
        (.error "recvmsg failed")).hwRxTime = ⟨0, 0⟩ :=
  (kernel_rx_error_propagation (.error "socket fd unavailable")
      (.error "recvmsg failed")).2.1 (by decide)

/-- C1 (code evaluation at the failing input): when the kernel
delivers no ancillary control message at all (`oobData = []`,
`oobn = 0` — shorter than the control-message header plus the
timestamp width), `ReadPacketWithKernelTimestamp` does not fail: it
returns a nil error together with a timestamp read from the
zero-initialized ancillary buffer at the fixed offset `CmsgSpace(0)`,
rather than any distinct ancillary-data error — the source performs no
bound check before the read and has no such error value. -/
theorem kernel_timestamp_unchecked_read :
    (ReadPacketWithKernelTimestamp (.ok 3)
        (.ok ⟨List.replicate 48 0, [], ⟨0⟩⟩)).err = none ∧
    (ReadPacketWithKernelTimestamp (.ok 3)
        (.ok ⟨List.replicate 48 0, [], ⟨0⟩⟩)).hwRxTime = ⟨0, 0⟩ := by
  decide

end Ntp
